import Mathlib

/-!
Verification of the paddy-cap order aggregation engine.

This file gives a shallow embedding, in Lean 4, of the order-aggregation
core of the repository: the order normalizer (`service/order/service.go`),
the unified-fetch HTTP handler (`server/routes.go`, duplicated in
`cmd/main.go`), the Orderspace token-auth client's token lifecycle and
response handling (`service/orderspace/client.go`), and the order-list
decoding of the two source clients (`orderspace/orders.go` and the
woocommerce `ListOrders`).

Modelling conventions:
- Go `float64` values are modelled as exact rationals (`ℚ`); the claims
  under scrutiny only use exactly-representable amounts.
- Go `time.Time` instants are modelled as civil field tuples (`DateTime`)
  compared through an integer encoding that is order-isomorphic to
  chronological order on valid instants; only comparisons and the civil
  fields are observable in the embedded code.
- Unicode-aware Go helpers (`strings.ToUpper`, `strings.TrimSpace`,
  `cases.Title`) are modelled on their ASCII behaviour, which is all the
  embedded call sites exercise.
- Effectful operations (HTTP round trips, `time.Now`) are made explicit
  parameters or explicit traces.
-/

namespace PaddyCap

/-- ASCII uppercase of one character (`strings.ToUpper`, ASCII fragment). -/
def asciiUpperChar (c : Char) : Char :=
  if 'a' ≤ c ∧ c ≤ 'z' then Char.ofNat (c.toNat - 32) else c

/-- ASCII lowercase of one character. -/
def asciiLowerChar (c : Char) : Char :=
  if 'A' ≤ c ∧ c ≤ 'Z' then Char.ofNat (c.toNat + 32) else c

/-- Model of `strings.ToUpper` (ASCII fragment; the embedded call sites
only pass currency codes). -/
def asciiToUpper (s : String) : String := String.mk (s.data.map asciiUpperChar)

/-- Go whitespace test, restricted to the ASCII space characters that
`strings.TrimSpace` trims. -/
def isGoSpace (c : Char) : Bool :=
  c = ' ' ∨ c = '\t' ∨ c = '\n' ∨ c = '\r'

/-- Model of `strings.TrimSpace` (ASCII fragment). -/
def trimSpace (s : String) : String :=
  String.mk (((s.data.dropWhile isGoSpace).reverse.dropWhile isGoSpace).reverse)

/-- Model of `cases.Title(language.English)` on ASCII input: the first
letter of each maximal letter run is uppercased, the rest lowercased. -/
def titleCaseChars : Bool → List Char → List Char
  | _, [] => []
  | atStart, c :: cs =>
    if c.isAlpha then
      (if atStart then asciiUpperChar c else asciiLowerChar c) :: titleCaseChars false cs
    else
      c :: titleCaseChars true cs

/-- Title-casing used for the `Status` field of canonical orders. -/
def titleCase (s : String) : String := String.mk (titleCaseChars true s.data)

/-- Civil wall-clock instant, the model of `time.Time`. -/
structure DateTime where
  year : Nat
  month : Nat
  day : Nat
  hour : Nat
  minute : Nat
  second : Nat
deriving Repr, DecidableEq

/-- Integer encoding of an instant; strictly monotone in chronological
order on valid instants, so it models `time.Time` comparisons
(`After`). -/
def DateTime.toSec (d : DateTime) : Nat :=
  ((((d.year * 13 + d.month) * 32 + d.day) * 24 + d.hour) * 60 + d.minute) * 60 + d.second

/-- Leap-year test of the Gregorian calendar, as in Go's `time` package. -/
def isLeap (y : Nat) : Bool :=
  y % 4 = 0 ∧ (y % 100 ≠ 0 ∨ y % 400 = 0)

/-- Number of days in a month, as validated by `time.Parse`. -/
def daysInMonth (y m : Nat) : Nat :=
  if m = 2 then (if isLeap y then 29 else 28)
  else if m = 4 ∨ m = 6 ∨ m = 9 ∨ m = 11 then 30
  else 31

/-- Value of one ASCII digit. -/
def digitVal (c : Char) : Option Nat :=
  if c.isDigit then some (c.toNat - 48) else none

/-- Parse exactly two digits (a fixed-width `time` layout field such as
`01`, `02`, `04`, `05`). -/
def parse2 : List Char → Option (Nat × List Char)
  | c1 :: c2 :: cs => do
    let d1 ← digitVal c1
    let d2 ← digitVal c2
    some (d1 * 10 + d2, cs)
  | _ => none

/-- Parse exactly four digits (the `2006` year field). -/
def parse4 : List Char → Option (Nat × List Char)
  | c1 :: c2 :: c3 :: c4 :: cs => do
    let d1 ← digitVal c1
    let d2 ← digitVal c2
    let d3 ← digitVal c3
    let d4 ← digitVal c4
    some (((d1 * 10 + d2) * 10 + d3) * 10 + d4, cs)
  | _ => none

/-- Parse one or two digits (the non-fixed `15` hour field of a `time`
layout accepts either). -/
def parse1or2 : List Char → Option (Nat × List Char)
  | c1 :: c2 :: cs =>
    match digitVal c1, digitVal c2 with
    | some d1, some d2 => some (d1 * 10 + d2, cs)
    | some d1, none => some (d1, c2 :: cs)
    | _, _ => none
  | [c1] => (digitVal c1).map (fun d => (d, []))
  | [] => none

/-- Expect one literal layout character. -/
def expectChar (c : Char) : List Char → Option (List Char)
  | x :: cs => if x = c then some cs else none
  | [] => none

/-- Parse the date part `2006-01-02` with `time.Parse`'s range
validation (month 1–12, day 1–days-in-month). -/
def parseDatePart (cs : List Char) : Option ((Nat × Nat × Nat) × List Char) := do
  let (y, cs) ← parse4 cs
  let cs ← expectChar '-' cs
  let (mo, cs) ← parse2 cs
  let cs ← expectChar '-' cs
  let (d, cs) ← parse2 cs
  if 1 ≤ mo ∧ mo ≤ 12 ∧ 1 ≤ d ∧ d ≤ daysInMonth y mo then
    some ((y, mo, d), cs)
  else none

/-- Parse the full layout fields `2006-01-02T15:04:05` with range
validation (hour ≤ 23, minute and second ≤ 59), leaving any trailing
characters unconsumed. -/
def parseDateTimeCore (cs : List Char) : Option (DateTime × List Char) := do
  let ((y, mo, d), cs) ← parseDatePart cs
  let cs ← expectChar 'T' cs
  let (h, cs) ← parse1or2 cs
  let cs ← expectChar ':' cs
  let (mi, cs) ← parse2 cs
  let cs ← expectChar ':' cs
  let (sec, cs) ← parse2 cs
  if h ≤ 23 ∧ mi ≤ 59 ∧ sec ≤ 59 then
    some (⟨y, mo, d, h, mi, sec⟩, cs)
  else none

/-- Model of `time.Parse("2006-01-02T15:04:05", s)`: the WooCommerce
creation-date layout, which must consume the whole string. -/
def parseWooDate (s : String) : Option DateTime :=
  match parseDateTimeCore s.data with
  | some (d, []) => some d
  | _ => none

/-- Model of `time.Parse("2006-01-02T15:04:05Z", s)`: the Orderspace
creation-date layout; the trailing `Z` is a literal layout character. -/
def parseOrderspaceDate (s : String) : Option DateTime :=
  match parseDateTimeCore s.data with
  | some (d, rest) =>
    match expectChar 'Z' rest with
    | some [] => some d
    | _ => none
  | none => none

/-- Model of `time.Parse("2006-01-02", s)`: the Orderspace delivery-date
layout. -/
def parseDateOnly (s : String) : Option DateTime :=
  match parseDatePart s.data with
  | some ((y, mo, d), []) => some ⟨y, mo, d, 0, 0, 0⟩
  | _ => none

/-- Short month names of Go's `time` package. -/
def monthName : Nat → String
  | 1 => "Jan" | 2 => "Feb" | 3 => "Mar" | 4 => "Apr"
  | 5 => "May" | 6 => "Jun" | 7 => "Jul" | 8 => "Aug"
  | 9 => "Sep" | 10 => "Oct" | 11 => "Nov" | 12 => "Dec"
  | _ => "???"

/-- Zero-pad a year to four digits, as `Format` does for the `2006`
field. -/
def pad4 (n : Nat) : String :=
  if n < 10 then "000" ++ toString n
  else if n < 100 then "00" ++ toString n
  else if n < 1000 then "0" ++ toString n
  else toString n

/-- Model of `t.Format("Jan 2, 2006")`: the display-date rendering used
by both converters. -/
def formatJan2 (d : DateTime) : String :=
  monthName d.month ++ " " ++ toString d.day ++ ", " ++ pad4 d.year

/-- ASCII digit character for a value below ten. -/
def digitChar (n : Nat) : Char := Char.ofNat (48 + n % 10)

/-- Two-digit zero-padded rendering of a value below one hundred. -/
def pad2 (n : Nat) : String := String.mk [digitChar (n / 10), digitChar n]

/-- Number of cents nearest to a rational amount, ties to even, as the
correctly-rounded fixed-precision formatting of `strconv.FormatFloat`
does; computed on numerator and denominator so it evaluates by kernel
reduction. -/
def roundCents (q : ℚ) : Int :=
  let n : Int := q.num * 100
  let d : Int := (q.den : Int)
  let fl : Int := Int.ediv n d
  let r : Int := n - fl * d
  if 2 * r < d then fl
  else if d < 2 * r then fl + 1
  else if fl % 2 = 0 then fl else fl + 1

/-- Model of `strconv.FormatFloat(amount, 'f', 2, 64)`: render with
exactly two digits after the decimal point.  Amounts are exact
rationals, so the binary-rounding step of `float64` is the identity on
all values the claims exercise. -/
def formatFloat2 (q : ℚ) : String :=
  let a : Nat := (roundCents q).natAbs
  let sign := if q.num < 0 then "-" else ""
  sign ++ toString (a / 100) ++ "." ++ pad2 (a % 100)

/-- Model of `FormatCurrency` (`service/order/service.go`): a fixed
symbol table for USD/GBP/EUR selected on the uppercased code; any other
code is rendered as the amount, a space, and the code as given. -/
def FormatCurrency (amount : ℚ) (currency : String) : String :=
  let c := asciiToUpper currency
  if c = "USD" then "$" ++ formatFloat2 amount
  else if c = "GBP" then "£" ++ formatFloat2 amount
  else if c = "EUR" then "€" ++ formatFloat2 amount
  else formatFloat2 amount ++ " " ++ currency

/-- Take a maximal run of digits. -/
def takeDigits (cs : List Char) : List Char × List Char :=
  (cs.takeWhile Char.isDigit, cs.dropWhile Char.isDigit)

/-- Natural value of a digit run. -/
def digitsToNat (ds : List Char) : Nat :=
  ds.foldl (fun acc c => acc * 10 + (c.toNat - 48)) 0

/-- Model of `strconv.ParseFloat(s, 64)` restricted to decimal notation:
optional sign, digits with an optional fractional part (at least one
digit overall), and an optional decimal exponent.  The hexadecimal,
infinity, NaN and underscore forms accepted by Go are omitted; the
embedded code only feeds it decimal order totals.  The value is kept as
an exact rational. -/
def parseFloat (s : String) : Option ℚ :=
  let step1 : Bool × List Char :=
    match s.data with
    | '-' :: cs => (true, cs)
    | '+' :: cs => (false, cs)
    | cs => (false, cs)
  let neg := step1.1
  let (ip, rest1) := takeDigits step1.2
  let fracStep : Option (List Char × List Char) :=
    match rest1 with
    | '.' :: cs => some (takeDigits cs)
    | _ => some ([], rest1)
  match fracStep with
  | none => none
  | some (fp, rest2) =>
    if ip = [] ∧ fp = [] then none
    else
      let mantNum : Nat := digitsToNat ip * 10 ^ fp.length + digitsToNat fp
      let mantDen : Nat := 10 ^ fp.length
      let expStep : Option ((Nat × Nat) × List Char) :=
        match rest2 with
        | 'e' :: cs | 'E' :: cs =>
          let signStep : Bool × List Char :=
            match cs with
            | '-' :: cs2 => (true, cs2)
            | '+' :: cs2 => (false, cs2)
            | cs2 => (false, cs2)
          let (eds, rest3) := takeDigits signStep.2
          if eds = [] then none
          else
            let e := digitsToNat eds
            some ((if signStep.1 then (mantNum, mantDen * 10 ^ e)
                   else (mantNum * 10 ^ e, mantDen)), rest3)
        | _ => some ((mantNum, mantDen), rest2)
      match expStep with
      | none => none
      | some ((n, d), rest3) =>
        if rest3 = [] then some (mkRat (if neg then -(n : Int) else (n : Int)) d)
        else none

/-- Billing address fields of a WooCommerce order that the embedded code
reads (`woocommerce.OrderAddress`, reduced to the fields the normalizer
uses). -/
structure WooBilling where
  FirstName : String
  LastName : String
  Email : String
deriving Repr, DecidableEq

/-- WooCommerce raw order (`woocommerce.Order`), reduced to the fields
the normalizer and the order-list decoder use. -/
structure WooOrder where
  ID : Int
  Status : String
  Currency : String
  DateCreated : String
  Total : String
  Billing : WooBilling
deriving Repr, DecidableEq

/-- Email addresses attached to an Orderspace order
(`orderspace.OrderEmailAddresses`). -/
structure OsEmailAddresses where
  Orders : String
  Dispatches : String
  Invoices : String
deriving Repr, DecidableEq

/-- Billing/shipping address of an Orderspace order
(`orderspace.OrderAddress`, reduced to the field the normalizer
uses). -/
structure OsAddress where
  ContactName : String
deriving Repr, DecidableEq

/-- Orderspace raw order (`orderspace.Order`), reduced to the fields the
normalizer and the order-list decoder use; `EmailAddresses` is kept to
express claims about fields the normalizer ignores. -/
structure OsOrder where
  ID : String
  Number : Int
  Created : String
  Status : String
  CompanyName : String
  EmailAddresses : OsEmailAddresses
  DeliveryDate : String
  BillingAddress : OsAddress
  Currency : String
  GrossTotal : ℚ
deriving Repr, DecidableEq

/-- Canonical unified order (`order.Order`). -/
structure Order where
  ID : String
  OrderNumber : Int
  Customer : String
  OrderDate : String
  DeliverOn : String
  Total : String
  Status : String
  Origin : String
  SortDate : DateTime
deriving Repr, DecidableEq

/-- Model of `(*OrderService).ConvertWooOrder`
(`service/order/service.go` lines 76–112).  `time.Now()` is the explicit
`now` parameter. -/
def ConvertWooOrder (now : DateTime) (o : WooOrder) : Order :=
  let customer0 := trimSpace (o.Billing.FirstName ++ " " ++ o.Billing.LastName)
  let customer := if customer0 = "" then o.Billing.Email else customer0
  let total : ℚ := (parseFloat o.Total).getD 0
  let parsed := parseWooDate o.DateCreated
  let sortDate := parsed.getD now
  let orderDate :=
    match parsed with
    | some d => formatJan2 d
    | none => o.DateCreated
  { ID := toString o.ID
    OrderNumber := o.ID
    Customer := customer
    OrderDate := orderDate
    DeliverOn := "N/A"
    Total := FormatCurrency total o.Currency
    Status := titleCase o.Status
    Origin := "WooCommerce"
    SortDate := sortDate }

/-- Model of `(*OrderService).ConvertOrderspaceOrder`
(`service/order/service.go` lines 115–154). -/
def ConvertOrderspaceOrder (now : DateTime) (o : OsOrder) : Order :=
  let customer :=
    if o.CompanyName = "" ∧ o.BillingAddress.ContactName ≠ "" then
      o.BillingAddress.ContactName
    else o.CompanyName
  let parsed := parseOrderspaceDate o.Created
  let sortDate := parsed.getD now
  let orderDate :=
    match parsed with
    | some d => formatJan2 d
    | none => o.Created
  let deliverOn :=
    if o.DeliveryDate ≠ "" then
      match parseDateOnly o.DeliveryDate with
      | some d => formatJan2 d
      | none => o.DeliveryDate
    else "N/A"
  { ID := o.ID
    OrderNumber := o.Number
    Customer := customer
    OrderDate := orderDate
    DeliverOn := deliverOn
    Total := FormatCurrency o.GrossTotal o.Currency
    Status := titleCase o.Status
    Origin := "Orderspace"
    SortDate := sortDate }

/-! ### The unified-fetch handler (`handleGetOrders`, `server/routes.go`)

Each source fetch (`GetLast10Orders`) returns a Go pair
`(*OrdersResponse, error)` in which the response pointer is nil exactly
when the error is non-nil; it is modelled as `Except String (List _)`
(the response reduced to its order list).  Each goroutine logs a non-nil
error and then unconditionally ranges over `res.Orders`; on a nil
response this is a nil-pointer dereference, which panics and — being in
a goroutine with no recover — crashes the process. -/

/-- Outcome of one invocation of the unified-fetch handler. -/
inductive HandlerOutcome where
  | ok (orders : List Order)
  | panicked (msg : String)
deriving Repr, DecidableEq

/-- The Go runtime message for dereferencing a nil pointer. -/
def nilDerefMsg : String :=
  "runtime error: invalid memory address or nil pointer dereference"

/-- The Orderspace goroutine of `handleGetOrders`: convert every fetched
order, or dereference the nil response after logging the fetch error. -/
def goroutineOrderspace (now : DateTime) (res : Except String (List OsOrder)) :
    Except String (List Order) :=
  match res with
  | .error _ => .error nilDerefMsg
  | .ok orders => .ok (orders.map (ConvertOrderspaceOrder now))

/-- The WooCommerce goroutine of `handleGetOrders`. -/
def goroutineWoo (now : DateTime) (res : Except String (List WooOrder)) :
    Except String (List Order) :=
  match res with
  | .error _ => .error nilDerefMsg
  | .ok orders => .ok (orders.map (ConvertWooOrder now))

/-- Boolean comparator under which the handler's output is sorted:
`sort.Slice` with the strict `orders[i].SortDate.After(orders[j].SortDate)`
less-function leaves the slice with no later element strictly more
recent than an earlier one, i.e. sorted under this non-strict
complement. -/
def sortDateGe (a b : Order) : Bool :=
  decide (b.SortDate.toSec ≤ a.SortDate.toSec)

/-- The sort step of `handleGetOrders`: `sort.Slice(orders, ...After...)`,
modelled by a merge sort establishing the same postcondition. -/
def sortOrdersDesc (l : List Order) : List Order :=
  l.mergeSort sortDateGe

/-- Model of `handleGetOrders` (`server/routes.go` lines 47–103,
duplicated in `cmd/main.go` lines 228–288): run both source goroutines,
merge both batches into the shared accumulator (`osFirst` selects which
batch lands first — the interleaving is not fixed by the code), then
sort descending by `SortDate`.  An unrecovered goroutine panic crashes
the call. -/
def handleGetOrders (now : DateTime) (osRes : Except String (List OsOrder))
    (wooRes : Except String (List WooOrder)) (osFirst : Bool) : HandlerOutcome :=
  match goroutineOrderspace now osRes, goroutineWoo now wooRes with
  | .ok a, .ok b => .ok (sortOrdersDesc (if osFirst then a ++ b else b ++ a))
  | .error m, _ => .panicked m
  | _, .error m => .panicked m

/-! ### Token lifecycle of the Orderspace client
(`service/orderspace/client.go`) -/

/-- Token-relevant state of `orderspace.Client`: the cached bearer token
and its stored expiry instant (seconds). -/
structure OsClient where
  accessToken : String
  tokenExpiry : Int
deriving Repr, DecidableEq

/-- OAuth token response (`orderspace.TokenResponse`). -/
structure OsTokenResponse where
  AccessToken : String
  TokenType : String
  ExpiresIn : Int
  Scope : String
deriving Repr, DecidableEq

/-- State update of a successful `getAccessToken` (lines 120–124): store
the token and set the expiry 30 seconds before the advertised one. -/
def getAccessToken (now : Int) (c : OsClient) (tok : OsTokenResponse) : OsClient :=
  { c with accessToken := tok.AccessToken, tokenExpiry := now + (tok.ExpiresIn - 30) }

/-- The refresh condition of `ensureValidToken` (lines 128–133): token
unset, or `time.Now().After(tokenExpiry)`. -/
def needsRefresh (now : Int) (c : OsClient) : Bool :=
  c.accessToken = "" || decide (c.tokenExpiry < now)

/-- One network round trip of the token-auth client. -/
inductive RoundTrip where
  | token
  | data
deriving Repr, DecidableEq

/-- Round-trip trace of one successful request through `makeRequest`:
`addAuth` runs `ensureValidToken` (acquiring a token if needed) before
the data request is issued. -/
def requestRoundTrips (now : Int) (c : OsClient) : List RoundTrip :=
  (if needsRefresh now c then [RoundTrip.token] else []) ++ [RoundTrip.data]

/-! ### JSON model

Response bodies are raw strings; `encoding/json` is modelled by a small
JSON value type and an executable parser.  Simplifications (documented
here once): string escapes, exponent notation and the distinction
between integral literals written with a decimal point are not modelled;
numbers are exact rationals.  Every theorem below case-splits on the
decoder's output, so these simplifications only restrict which concrete
strings exercise which branch. -/

/-- JSON values. -/
inductive Json where
  | null
  | bool (b : Bool)
  | num (q : ℚ)
  | str (s : String)
  | arr (xs : List Json)
  | obj (fields : List (String × Json))

/-- Skip JSON whitespace. -/
def skipWs : List Char → List Char
  | c :: cs => if c = ' ' ∨ c = '\t' ∨ c = '\n' ∨ c = '\r' then skipWs cs else c :: cs
  | [] => []

/-- Parse the remainder of a JSON string literal after its opening
quote (escape sequences not modelled). -/
def parseStringLit : List Char → Option (String × List Char)
  | [] => none
  | c :: cs =>
    if c = '"' then some ("", cs)
    else
      match parseStringLit cs with
      | some (s, rest) => some (String.mk (c :: s.data), rest)
      | none => none

/-- Parse a JSON number: optional minus sign, integer digits, optional
fractional digits. -/
def parseNumber (cs : List Char) : Option (ℚ × List Char) :=
  let step1 : Bool × List Char :=
    match cs with
    | '-' :: rest => (true, rest)
    | _ => (false, cs)
  let (ip, rest1) := takeDigits step1.2
  if ip = [] then none
  else
    match rest1 with
    | '.' :: cs2 =>
      let (fp, rest2) := takeDigits cs2
      if fp = [] then none
      else
        let n : Nat := digitsToNat ip * 10 ^ fp.length + digitsToNat fp
        let v : ℚ := mkRat (if step1.1 then -(n : Int) else (n : Int)) (10 ^ fp.length)
        some (v, rest2)
    | _ =>
      let n : Nat := digitsToNat ip
      let v : ℚ := mkRat (if step1.1 then -(n : Int) else (n : Int)) 1
      some (v, rest1)

mutual

/-- Parse one JSON value; `fuel` bounds the nesting depth and
`jsonParse` supplies enough of it for any input. -/
def parseJsonVal : Nat → List Char → Option (Json × List Char)
  | 0, _ => none
  | fuel + 1, cs =>
    match skipWs cs with
    | 'n' :: 'u' :: 'l' :: 'l' :: rest => some (Json.null, rest)
    | 't' :: 'r' :: 'u' :: 'e' :: rest => some (Json.bool true, rest)
    | 'f' :: 'a' :: 'l' :: 's' :: 'e' :: rest => some (Json.bool false, rest)
    | '"' :: rest =>
      match parseStringLit rest with
      | some (s, r) => some (Json.str s, r)
      | none => none
    | '[' :: rest =>
      match skipWs rest with
      | ']' :: r2 => some (Json.arr [], r2)
      | cs2 =>
        match parseJsonVal fuel cs2 with
        | some (v, r1) =>
          match parseArrTail fuel r1 with
          | some (vs, r2) => some (Json.arr (v :: vs), r2)
          | none => none
        | none => none
    | '{' :: rest =>
      match skipWs rest with
      | '}' :: r2 => some (Json.obj [], r2)
      | cs2 =>
        match parseObjField fuel cs2 with
        | some (kv, r1) =>
          match parseObjTail fuel r1 with
          | some (kvs, r2) => some (Json.obj (kv :: kvs), r2)
          | none => none
        | none => none
    | other =>
      match parseNumber other with
      | some (q, r) => some (Json.num q, r)
      | none => none

/-- Parse the rest of a JSON array after one element: a comma and
another element, or the closing bracket. -/
def parseArrTail : Nat → List Char → Option (List Json × List Char)
  | 0, _ => none
  | fuel + 1, cs =>
    match skipWs cs with
    | ']' :: rest => some ([], rest)
    | ',' :: rest =>
      match parseJsonVal fuel rest with
      | some (v, r1) =>
        match parseArrTail fuel r1 with
        | some (vs, r2) => some (v :: vs, r2)
        | none => none
      | none => none
    | _ => none

/-- Parse one `"key": value` member of a JSON object. -/
def parseObjField : Nat → List Char → Option ((String × Json) × List Char)
  | 0, _ => none
  | fuel + 1, cs =>
    match skipWs cs with
    | '"' :: rest =>
      match parseStringLit rest with
      | some (k, r1) =>
        match skipWs r1 with
        | ':' :: r2 =>
          match parseJsonVal fuel r2 with
          | some (v, r3) => some ((k, v), r3)
          | none => none
        | _ => none
      | none => none
    | _ => none

/-- Parse the rest of a JSON object after one member. -/
def parseObjTail : Nat → List Char → Option (List (String × Json) × List Char)
  | 0, _ => none
  | fuel + 1, cs =>
    match skipWs cs with
    | '}' :: rest => some ([], rest)
    | ',' :: rest =>
      match parseObjField fuel rest with
      | some (kv, r1) =>
        match parseObjTail fuel r1 with
        | some (kvs, r2) => some (kv :: kvs, r2)
        | none => none
      | none => none
    | _ => none

end

/-- Model of parsing a whole JSON document (`json.Unmarshal`'s syntactic
layer): the document must be a single value followed only by
whitespace. -/
def jsonParse (s : String) : Option Json :=
  match parseJsonVal (s.length + 1) s.data with
  | some (v, rest) => if skipWs rest = [] then some v else none
  | none => none

/-- Look up a field of a JSON object (first occurrence). -/
def lookupField (fields : List (String × Json)) (k : String) : Option Json :=
  match fields.find? (fun kv => kv.1 = k) with
  | some kv => some kv.2
  | none => none

/-- Decode a struct field of Go type `string`: absent or null yields the
zero value, a string yields itself, any other JSON type is an
`UnmarshalTypeError`. -/
def getStrField (fields : List (String × Json)) (k : String) : Option String :=
  match lookupField fields k with
  | none => some ""
  | some Json.null => some ""
  | some (Json.str s) => some s
  | some _ => none

/-- Decode a struct field of Go type `int`. -/
def getIntField (fields : List (String × Json)) (k : String) : Option Int :=
  match lookupField fields k with
  | none => some 0
  | some Json.null => some 0
  | some (Json.num q) => if q.den = 1 then some q.num else none
  | some _ => none

/-- Decode a struct field of Go type `float64`. -/
def getNumField (fields : List (String × Json)) (k : String) : Option ℚ :=
  match lookupField fields k with
  | none => some 0
  | some Json.null => some 0
  | some (Json.num q) => some q
  | some _ => none

/-! ### Response handling of `makeRequest`
(`service/orderspace/client.go` lines 170–248)

Request construction, authentication and the pagination-metadata
computation do not affect the returned `Data`/error and are omitted; the
function below is `makeRequest` from the point where the response status
and body have been read. -/

/-- The structured Orderspace error body (`orderspace.Error`). -/
structure OsError where
  Message : String
  Code : Int
deriving Repr, DecidableEq

/-- Model of `json.Unmarshal(respBody, &apiError)`: succeeds on a JSON
object (fields typed as in `orderspace.Error`, absent fields zero) or on
`null`; fails on anything else. -/
def unmarshalOsError (body : String) : Option OsError :=
  match jsonParse body with
  | some (Json.obj fields) => do
    let msg ← getStrField fields "message"
    let code ← getIntField fields "code"
    some { Message := msg, Code := code }
  | some Json.null => some { Message := "", Code := 0 }
  | _ => none

/-- Failure cases of `makeRequest`. -/
inductive OsFailure where
  | api (e : OsError)
  | http (status : Nat) (body : String)
  | badJson (body : String)
deriving Repr, DecidableEq

/-- Model of `makeRequest`'s response handling: statuses of 400 and
above fail with the decoded API error (its code overwritten by the
response status) or, when the body does not decode, with a generic
error wrapping status and raw body; other statuses parse a non-empty
body as JSON into `Data` (`none` models a nil `Data` for an empty
body). -/
def makeRequest (status : Nat) (body : String) : Except OsFailure (Option Json) :=
  if 400 ≤ status then
    match unmarshalOsError body with
    | none => .error (.http status body)
    | some e => .error (.api { e with Code := (status : Int) })
  else
    if 0 < body.length then
      match jsonParse body with
      | none => .error (.badJson body)
      | some v => .ok (some v)
    else .ok none

/-! ### Order-list decoding of the two clients -/

/-- Decode one Orderspace order from a JSON value, as `json.Unmarshal`
does for `orderspace.Order` (reduced field set; `null` decodes to the
zero value). -/
def decodeOsOrder (j : Json) : Option OsOrder :=
  match j with
  | Json.null => some ⟨"", 0, "", "", "", ⟨"", "", ""⟩, "", ⟨""⟩, "", 0⟩
  | Json.obj fields => do
    let id ← getStrField fields "id"
    let number ← getIntField fields "number"
    let created ← getStrField fields "created"
    let status ← getStrField fields "status"
    let company ← getStrField fields "company_name"
    let emails ←
      match lookupField fields "email_addresses" with
      | none => some (⟨"", "", ""⟩ : OsEmailAddresses)
      | some Json.null => some ⟨"", "", ""⟩
      | some (Json.obj efs) => do
        let a ← getStrField efs "orders"
        let b ← getStrField efs "dispatches"
        let c ← getStrField efs "invoices"
        some (⟨a, b, c⟩ : OsEmailAddresses)
      | some _ => none
    let delivery ← getStrField fields "delivery_date"
    let billing ←
      match lookupField fields "billing_address" with
      | none => some (⟨""⟩ : OsAddress)
      | some Json.null => some ⟨""⟩
      | some (Json.obj bfs) => do
        let c ← getStrField bfs "contact_name"
        some (⟨c⟩ : OsAddress)
      | some _ => none
    let currency ← getStrField fields "currency"
    let gross ← getNumField fields "gross_total"
    some ⟨id, number, created, status, company, emails, delivery, billing, currency, gross⟩
  | _ => none

/-- Decode a JSON value as a direct array of Orderspace orders
(`json.Unmarshal(jsonData, &orders)`); `null` decodes to the nil
slice. -/
def decodeOsOrderArr (j : Json) : Option (List OsOrder) :=
  match j with
  | Json.null => some []
  | Json.arr xs => xs.mapM decodeOsOrder
  | _ => none

/-- Decode a JSON value as the wrapped response shape (a struct with a
single slice field tagged `orders`): an object whose optional `orders`
field is an order array. -/
def decodeWrappedOsOrders (j : Json) : Option (List OsOrder) :=
  match j with
  | Json.null => some []
  | Json.obj fields =>
    match lookupField fields "orders" with
    | none => some []
    | some v => decodeOsOrderArr v
  | _ => none

/-- Model of the decode step of the Orderspace `ListOrders`
(`orderspace/orders.go` lines 152–171): try the direct array shape
first, fall back to the wrapped shape, and fail only when both fail.  A
nil `response.Data` skips decoding entirely. -/
def osUnmarshalOrders (data : Option Json) : Except String (List OsOrder) :=
  match data with
  | none => .ok []
  | some j =>
    match decodeOsOrderArr j with
    | some orders => .ok orders
    | none =>
      match decodeWrappedOsOrders j with
      | some orders => .ok orders
      | none => .error "failed to unmarshal orders"

/-- Decode one WooCommerce order from a JSON value (reduced field
set). -/
def decodeWooOrder (j : Json) : Option WooOrder :=
  match j with
  | Json.null => some ⟨0, "", "", "", "", ⟨"", "", ""⟩⟩
  | Json.obj fields => do
    let id ← getIntField fields "id"
    let status ← getStrField fields "status"
    let currency ← getStrField fields "currency"
    let created ← getStrField fields "date_created"
    let total ← getStrField fields "total"
    let billing ←
      match lookupField fields "billing" with
      | none => some (⟨"", "", ""⟩ : WooBilling)
      | some Json.null => some ⟨"", "", ""⟩
      | some (Json.obj bfs) => do
        let f ← getStrField bfs "first_name"
        let l ← getStrField bfs "last_name"
        let e ← getStrField bfs "email"
        some (⟨f, l, e⟩ : WooBilling)
      | some _ => none
    some ⟨id, status, currency, created, total, billing⟩
  | _ => none

/-- Decode a JSON value as a direct array of WooCommerce orders. -/
def decodeWooOrderArr (j : Json) : Option (List WooOrder) :=
  match j with
  | Json.null => some []
  | Json.arr xs => xs.mapM decodeWooOrder
  | _ => none

/-- Model of the decode step of the WooCommerce `ListOrders`
(woocommerce `orders.go`, in `src/middleware/middleware.go` lines
420–443): only the direct array shape is attempted; there is no wrapped
fallback. -/
def wooUnmarshalOrders (data : Option Json) : Except String (List WooOrder) :=
  match data with
  | none => .ok []
  | some j =>
    match decodeWooOrderArr j with
    | some orders => .ok orders
    | none => .error "failed to unmarshal orders"

/-! ### Sample data used by concrete theorems and witnesses -/

/-- A fixed conversion instant standing for `time.Now()`. -/
def exNow : DateTime := ⟨2025, 6, 15, 12, 0, 0⟩

/-- A well-formed WooCommerce order. -/
def exWoo : WooOrder :=
  ⟨123, "processing", "USD", "2024-01-03T10:00:00", "12.5", ⟨"John", "Doe", "jd@example.com"⟩⟩

/-- A well-formed Orderspace order. -/
def exOs : OsOrder :=
  ⟨"or_1", 42, "2024-01-02T09:30:00Z", "new", "Acme", ⟨"a@b.com", "", ""⟩, "", ⟨"Jane"⟩, "GBP", 99⟩

/-! ### Claim theorems -/

/-- C1: the claim states that when exactly one source's `GetLast10Orders`
fails the handler completes and returns the other source's normalized
orders.  The code does log the failure, but then unconditionally ranges
over `res.Orders` on the nil response returned alongside the error, a
nil-pointer dereference that panics inside an unrecovered goroutine and
crashes the call instead of degrading to zero orders.  This theorem
evaluates the handler at such a failing input: the Orderspace fetch
fails with a simulated network error, the WooCommerce fetch succeeds,
and the outcome is the nil-dereference panic, not a response. -/
theorem handleGetOrders_source_failure_panics :
    handleGetOrders exNow (Except.error "simulated network error") (Except.ok [exWoo]) true
      = HandlerOutcome.panicked nilDerefMsg
    ∧ handleGetOrders exNow (Except.ok [exOs]) (Except.error "simulated network error") true
      = HandlerOutcome.panicked nilDerefMsg := by
  exact ⟨rfl, rfl⟩

/-- Helper: the sort step of the handler leaves the list sorted
non-increasing by `SortDate`. -/
theorem sortOrdersDesc_sorted (l : List Order) :
    (sortOrdersDesc l).Pairwise (fun a b => b.SortDate.toSec ≤ a.SortDate.toSec) := by
  have htrans : ∀ (a b c : Order), sortDateGe a b → sortDateGe b c → sortDateGe a c := by
    intro a b c hab hbc
    simp only [sortDateGe, decide_eq_true_eq] at *
    omega
  have htotal : ∀ (a b : Order), sortDateGe a b || sortDateGe b a := by
    intro a b
    simp only [sortDateGe, Bool.or_eq_true, decide_eq_true_eq]
    omega
  have hs := List.sorted_mergeSort htrans htotal l
  exact hs.imp (by intro a b h; simpa [sortDateGe, decide_eq_true_eq] using h)

/-- C2: when the Orderspace fetch yields N orders and the WooCommerce
fetch yields M orders, the handler succeeds with exactly N+M orders —
precisely the normalized orders of both sources — sorted non-increasing
by `SortDate`, regardless of which source's batch was appended to the
shared accumulator first. -/
theorem handleGetOrders_merges_and_sorts (now : DateTime) (os : List OsOrder)
    (woo : List WooOrder) (osFirst : Bool) :
    ∃ l, handleGetOrders now (Except.ok os) (Except.ok woo) osFirst = HandlerOutcome.ok l
      ∧ l.length = os.length + woo.length
      ∧ l.Perm (os.map (ConvertOrderspaceOrder now) ++ woo.map (ConvertWooOrder now))
      ∧ l.Pairwise (fun a b => b.SortDate.toSec ≤ a.SortDate.toSec) := by
  refine ⟨_, rfl, ?_, ?_, sortOrdersDesc_sorted _⟩
  · unfold sortOrdersDesc
    rw [List.length_mergeSort]
    cases osFirst <;> simp [Nat.add_comm]
  · unfold sortOrdersDesc
    refine (List.mergeSort_perm _ _).trans ?_
    cases osFirst
    · simpa using List.perm_append_comm
    · simp

/-- C2 witness: the merge-and-sort result at one concrete order per
source. -/
theorem handleGetOrders_merges_and_sorts_witness :
    ∃ l, handleGetOrders exNow (Except.ok [exOs]) (Except.ok [exWoo]) true = HandlerOutcome.ok l
      ∧ l.length = 2
      ∧ l.Perm ([exOs].map (ConvertOrderspaceOrder exNow) ++ [exWoo].map (ConvertWooOrder exNow))
      ∧ l.Pairwise (fun a b => b.SortDate.toSec ≤ a.SortDate.toSec) :=
  handleGetOrders_merges_and_sorts exNow [exOs] [exWoo] true

/-- C3: both normalizers always populate `SortDate` — with the parsed
creation date, falling back to the conversion-time `now` when parsing
fails — and stamp a fixed non-empty `Origin` for their source. -/
theorem converters_set_origin_and_sortDate (now : DateTime) (w : WooOrder) (o : OsOrder) :
    (ConvertWooOrder now w).Origin = "WooCommerce"
    ∧ (ConvertWooOrder now w).Origin ≠ ""
    ∧ (ConvertWooOrder now w).SortDate = (parseWooDate w.DateCreated).getD now
    ∧ (ConvertOrderspaceOrder now o).Origin = "Orderspace"
    ∧ (ConvertOrderspaceOrder now o).Origin ≠ ""
    ∧ (ConvertOrderspaceOrder now o).SortDate = (parseOrderspaceDate o.Created).getD now := by
  refine ⟨rfl, ?_, rfl, rfl, ?_, rfl⟩
  · rw [show (ConvertWooOrder now w).Origin = "WooCommerce" from rfl]
    decide
  · rw [show (ConvertOrderspaceOrder now o).Origin = "Orderspace" from rfl]
    decide

/-- C3 witness: the invariants at one concrete order per source. -/
theorem converters_set_origin_and_sortDate_witness :
    (ConvertWooOrder exNow exWoo).Origin = "WooCommerce"
    ∧ (ConvertWooOrder exNow exWoo).Origin ≠ ""
    ∧ (ConvertWooOrder exNow exWoo).SortDate = (parseWooDate exWoo.DateCreated).getD exNow
    ∧ (ConvertOrderspaceOrder exNow exOs).Origin = "Orderspace"
    ∧ (ConvertOrderspaceOrder exNow exOs).Origin ≠ ""
    ∧ (ConvertOrderspaceOrder exNow exOs).SortDate = (parseOrderspaceDate exOs.Created).getD exNow :=
  converters_set_origin_and_sortDate exNow exWoo exOs

/-- C4 counterexample: the claim states that each normalizer's customer
chain ends in the contact email, so an Orderspace order with empty
company and contact names but a present email would get a non-empty
`Customer`.  On the code, `ConvertOrderspaceOrder` never consults the
email addresses: this concrete order carries `buyer@example.com` yet its
`Customer` is the empty string. -/
theorem convertOrderspaceOrder_ignores_email :
    (ConvertOrderspaceOrder exNow
        ⟨"or_2", 7, "2024-01-02T09:30:00Z", "new", "", ⟨"buyer@example.com", "", ""⟩,
          "", ⟨""⟩, "USD", 10⟩).Customer = ""
    ∧ ("buyer@example.com" : String) ≠ "" := by
  exact ⟨rfl, by decide⟩

/-- C4 (amended): `ConvertWooOrder` resolves `Customer` as the trimmed
billing first+last name, falling back to the billing email, and yields
the empty string exactly when both are absent; `ConvertOrderspaceOrder`
resolves the company name, then the billing contact name, with no email
fallback: its `Customer` is empty exactly when company and contact names
are both empty, independently of the order's email addresses. -/
theorem customer_resolution_chains (now : DateTime) (w : WooOrder) (o : OsOrder) :
    ((ConvertWooOrder now w).Customer = "" ↔
      trimSpace (w.Billing.FirstName ++ " " ++ w.Billing.LastName) = "" ∧ w.Billing.Email = "")
    ∧ ((ConvertOrderspaceOrder now o).Customer = "" ↔
      o.CompanyName = "" ∧ o.BillingAddress.ContactName = "")
    ∧ ∀ e, (ConvertOrderspaceOrder now { o with EmailAddresses := e }).Customer
        = (ConvertOrderspaceOrder now o).Customer := by
  refine ⟨?_, ?_, fun e => rfl⟩
  · simp only [ConvertWooOrder]
    split
    · rename_i h; simp [h]
    · rename_i h; simp [h]
  · simp only [ConvertOrderspaceOrder]
    split
    · rename_i h
      constructor
      · intro hc; exact absurd hc h.2
      · intro hc; exact absurd hc.2 h.2
    · rename_i h
      push_neg at h
      constructor
      · intro hc; exact ⟨hc, by by_cases hcn : o.CompanyName = "" <;> simp_all⟩
      · intro hc; exact hc.1

/-- C4 witness: the customer chains at one concrete order per source. -/
theorem customer_resolution_chains_witness :
    ((ConvertWooOrder exNow exWoo).Customer = "" ↔
      trimSpace (exWoo.Billing.FirstName ++ " " ++ exWoo.Billing.LastName) = ""
        ∧ exWoo.Billing.Email = "")
    ∧ ((ConvertOrderspaceOrder exNow exOs).Customer = "" ↔
      exOs.CompanyName = "" ∧ exOs.BillingAddress.ContactName = "")
    ∧ ∀ e, (ConvertOrderspaceOrder exNow { exOs with EmailAddresses := e }).Customer
        = (ConvertOrderspaceOrder exNow exOs).Customer :=
  customer_resolution_chains exNow exWoo exOs

/-- C5: the token client refreshes if and only if the cached token is
unset or the current time is strictly past the stored expiry; a call
with a still-valid token performs zero token round trips before its data
request, a call with an absent or expired token performs exactly one,
and a successful acquisition stores the acquisition time plus
(expires_in − 30 seconds) as the new expiry. -/
theorem token_refresh_policy (now : Int) (c : OsClient) :
    (needsRefresh now c = true ↔ (c.accessToken = "" ∨ c.tokenExpiry < now))
    ∧ ((c.accessToken ≠ "" ∧ now ≤ c.tokenExpiry) →
        requestRoundTrips now c = [RoundTrip.data])
    ∧ ((c.accessToken = "" ∨ c.tokenExpiry < now) →
        requestRoundTrips now c = [RoundTrip.token, RoundTrip.data])
    ∧ (∀ (acquiredAt : Int) (tok : OsTokenResponse),
        (getAccessToken acquiredAt c tok).tokenExpiry = acquiredAt + (tok.ExpiresIn - 30)
        ∧ (getAccessToken acquiredAt c tok).accessToken = tok.AccessToken) := by
  refine ⟨?_, ?_, ?_, fun a tok => ⟨rfl, rfl⟩⟩
  · simp [needsRefresh]
  · intro h
    have : needsRefresh now c = false := by
      simp [needsRefresh, h.1]
      omega
    simp [requestRoundTrips, this]
  · intro h
    have : needsRefresh now c = true := by
      simp [needsRefresh]
      rcases h with h | h
      · exact Or.inl h
      · exact Or.inr h
    simp [requestRoundTrips, this]

/-- C5 witness: with a still-valid cached token (now 100, expiry 200)
the trace is just the data request; with an expired one (now 300) the
trace is exactly one token acquisition followed by the data request. -/
theorem token_refresh_policy_witness :
    requestRoundTrips 100 ⟨"cached-token", 200⟩ = [RoundTrip.data]
    ∧ requestRoundTrips 300 ⟨"cached-token", 200⟩ = [RoundTrip.token, RoundTrip.data]
    ∧ requestRoundTrips 100 ⟨"", 200⟩ = [RoundTrip.token, RoundTrip.data] :=
  ⟨(token_refresh_policy 100 ⟨"cached-token", 200⟩).2.1 (by decide),
   (token_refresh_policy 300 ⟨"cached-token", 200⟩).2.2.1 (by decide),
   (token_refresh_policy 100 ⟨"", 200⟩).2.2.1 (by decide)⟩

/-- Helper: the decimal literal 12.5 as a kernel-reducible rational. -/
theorem twelve_point_five_eq : (12.5 : ℚ) = mkRat 25 2 := by
  rw [Rat.mkRat_eq_div]; norm_num

/-- C6: `FormatCurrency` renders every amount with exactly two decimal
places, prefixes the fixed symbols for USD, GBP and EUR (selected on the
uppercased code), renders every other code as the amount, a space, and
the code, and in particular maps 12.5 to "$12.50", "£12.50" and
"12.50 XYZ". -/
theorem formatCurrency_symbol_table (q : ℚ) (code : String) :
    FormatCurrency (12.5 : ℚ) "USD" = "$12.50"
    ∧ FormatCurrency (12.5 : ℚ) "GBP" = "£12.50"
    ∧ FormatCurrency (12.5 : ℚ) "EUR" = "€12.50"
    ∧ FormatCurrency (12.5 : ℚ) "XYZ" = "12.50 XYZ"
    ∧ FormatCurrency q "USD" = "$" ++ formatFloat2 q
    ∧ FormatCurrency q "GBP" = "£" ++ formatFloat2 q
    ∧ FormatCurrency q "EUR" = "€" ++ formatFloat2 q
    ∧ (asciiToUpper code ≠ "USD" → asciiToUpper code ≠ "GBP" → asciiToUpper code ≠ "EUR" →
        FormatCurrency q code = formatFloat2 q ++ " " ++ code)
    ∧ (∃ t u, formatFloat2 q = t ++ "." ++ u ∧ u.length = 2) := by
  rw [twelve_point_five_eq]
  refine ⟨by decide, by decide, by decide, by decide, rfl, rfl, rfl, ?_, ?_⟩
  · intro h1 h2 h3
    simp [FormatCurrency, h1, h2, h3]
  · refine ⟨(if q.num < 0 then "-" else "") ++ toString ((roundCents q).natAbs / 100),
      pad2 ((roundCents q).natAbs % 100), ?_, rfl⟩
    simp [formatFloat2, String.append_assoc]

/-- C6 witness: the default branch of the symbol table at a concrete
unknown code, via the theorem. -/
theorem formatCurrency_symbol_table_witness :
    FormatCurrency (mkRat 25 2) "xyz" = formatFloat2 (mkRat 25 2) ++ " " ++ "xyz"
    ∧ formatFloat2 (mkRat 25 2) ++ " " ++ "xyz" = "12.50 xyz" :=
  ⟨(formatCurrency_symbol_table (mkRat 25 2) "xyz").2.2.2.2.2.2.2.1
      (by decide) (by decide) (by decide),
   by decide⟩

/-- C7: when the creation-date string fails to parse in the source's
layout, each normalizer produces an order whose `SortDate` is the
conversion-time `now` (so never the zero value, and no earlier than the
call's start whenever `now` is not) and whose displayed `OrderDate` is
the raw unparsed string; the conversion still returns an order, never an
error. -/
theorem date_parse_failure_falls_back (now : DateTime) (w : WooOrder) (o : OsOrder)
    (hw : parseWooDate w.DateCreated = none) (ho : parseOrderspaceDate o.Created = none) :
    (ConvertWooOrder now w).SortDate = now
    ∧ (ConvertWooOrder now w).OrderDate = w.DateCreated
    ∧ (ConvertOrderspaceOrder now o).SortDate = now
    ∧ (ConvertOrderspaceOrder now o).OrderDate = o.Created := by
  refine ⟨?_, ?_, ?_, ?_⟩ <;> simp [ConvertWooOrder, ConvertOrderspaceOrder, hw, ho]

/-- C7 witness: a slash-formatted WooCommerce date and an Orderspace
date missing its trailing Z both fail to parse, and conversion falls
back to `now` for sorting and the raw string for display. -/
theorem date_parse_failure_falls_back_witness :
    parseWooDate "03/01/2024" = none
    ∧ parseOrderspaceDate "2024-01-02T09:30:00" = none
    ∧ ((ConvertWooOrder exNow { exWoo with DateCreated := "03/01/2024" }).SortDate = exNow
      ∧ (ConvertWooOrder exNow { exWoo with DateCreated := "03/01/2024" }).OrderDate = "03/01/2024"
      ∧ (ConvertOrderspaceOrder exNow { exOs with Created := "2024-01-02T09:30:00" }).SortDate = exNow
      ∧ (ConvertOrderspaceOrder exNow { exOs with Created := "2024-01-02T09:30:00" }).OrderDate
          = "2024-01-02T09:30:00") :=
  ⟨rfl, rfl,
   date_parse_failure_falls_back exNow { exWoo with DateCreated := "03/01/2024" }
      { exOs with Created := "2024-01-02T09:30:00" } rfl rfl⟩

/-- C8 counterexample: the claim states every non-2xx response fails the
call, but the code's error branch only triggers on statuses of 400 and
above; a 304 (non-2xx) response with a decodable JSON body takes the
success path and returns data. -/
theorem makeRequest_non2xx_success :
    makeRequest 304 "\x7b\x7d" = Except.ok (some (Json.obj []))
    ∧ ¬ (200 ≤ 304 ∧ 304 ≤ 299) := by
  exact ⟨rfl, by decide⟩

/-- C8 (amended): for every response with status 400 or above the call
fails — with an API error carrying the response status code and the
decoded message when the body decodes as the structured error shape, and
with a generic error wrapping status and raw body otherwise — and no
such response ever produces a successful result.  (Statuses of 3xx,
although not 2xx, take the success path: see the counterexample.) -/
theorem makeRequest_error_statuses (status : Nat) (body : String) (h : 400 ≤ status) :
    (∀ e, unmarshalOsError body = some e →
        makeRequest status body = Except.error (OsFailure.api ⟨e.Message, (status : Int)⟩))
    ∧ (unmarshalOsError body = none →
        makeRequest status body = Except.error (OsFailure.http status body))
    ∧ (∀ v, makeRequest status body ≠ Except.ok v) := by
  unfold makeRequest
  rw [if_pos h]
  refine ⟨?_, ?_, ?_⟩
  · intro e he; rw [he]
  · intro he; rw [he]
  · intro v hv
    cases hu : unmarshalOsError body <;> rw [hu] at hv <;> exact Except.noConfusion hv

/-- C8 witness: a 404 with a structured body yields the API error
carrying status 404 and the decoded message; a 500 with a non-JSON body
yields the generic error wrapping status and raw body. -/
theorem makeRequest_error_statuses_witness :
    makeRequest 404 "\x7b\"message\":\"record not found\"\x7d"
      = Except.error (OsFailure.api ⟨"record not found", 404⟩)
    ∧ makeRequest 500 "upstream blew up"
      = Except.error (OsFailure.http 500 "upstream blew up") :=
  ⟨(makeRequest_error_statuses 404 "\x7b\"message\":\"record not found\"\x7d"
      (by decide)).1 ⟨"record not found", 0⟩ rfl,
   (makeRequest_error_statuses 500 "upstream blew up" (by decide)).2.1 rfl⟩

/-- C9 counterexample: the claim states the WooCommerce order-list call
falls back to the wrapped envelope, but its decode step only attempts
the direct array shape: a wrapped response body decodes to an error, not
to the contained orders. -/
theorem wooListOrders_rejects_wrapped_envelope :
    wooUnmarshalOrders (some (Json.obj [("orders", Json.arr [])]))
      = Except.error "failed to unmarshal orders" := rfl

/-- C9 (amended): the dual-envelope decoding is implemented in the
Orderspace (token-auth) order-list call, not the WooCommerce (key-auth)
one: the Orderspace decode step accepts a direct order array, falls back
to the array nested under the `orders` field when the direct shape
fails, and declares a decode failure only when both shapes fail, while
the WooCommerce decode step attempts only the direct array shape and
fails on every object-shaped (wrapped) response. -/
theorem listOrders_envelope_fallback (j : Json) :
    (∀ os, decodeOsOrderArr j = some os → osUnmarshalOrders (some j) = Except.ok os)
    ∧ (∀ os, decodeOsOrderArr j = none → decodeWrappedOsOrders j = some os →
        osUnmarshalOrders (some j) = Except.ok os)
    ∧ (decodeOsOrderArr j = none → decodeWrappedOsOrders j = none →
        osUnmarshalOrders (some j) = Except.error "failed to unmarshal orders")
    ∧ (∀ fields, wooUnmarshalOrders (some (Json.obj fields))
        = Except.error "failed to unmarshal orders") := by
  refine ⟨?_, ?_, ?_, fun fields => rfl⟩
  · intro os h; show (match decodeOsOrderArr j with
      | some orders => Except.ok orders
      | none =>
        match decodeWrappedOsOrders j with
        | some orders => Except.ok orders
        | none => Except.error "failed to unmarshal orders") = Except.ok os
    rw [h]
  · intro os h1 h2; show (match decodeOsOrderArr j with
      | some orders => Except.ok orders
      | none =>
        match decodeWrappedOsOrders j with
        | some orders => Except.ok orders
        | none => Except.error "failed to unmarshal orders") = Except.ok os
    rw [h1, h2]
  · intro h1 h2; show (match decodeOsOrderArr j with
      | some orders => Except.ok orders
      | none =>
        match decodeWrappedOsOrders j with
        | some orders => Except.ok orders
        | none => Except.error "failed to unmarshal orders") = Except.error "failed to unmarshal orders"
    rw [h1, h2]

/-- C9 witness: a concrete wrapped Orderspace response yields the
contained order through the fallback branch of the theorem. -/
theorem listOrders_envelope_fallback_witness :
    osUnmarshalOrders (some (Json.obj [("orders", Json.arr [Json.obj [("id", Json.str "or_9")]])]))
      = Except.ok [⟨"or_9", 0, "", "", "", ⟨"", "", ""⟩, "", ⟨""⟩, "", 0⟩] :=
  (listOrders_envelope_fallback (Json.obj [("orders", Json.arr [Json.obj [("id", Json.str "or_9")]])])).2.1
    [⟨"or_9", 0, "", "", "", ⟨"", "", ""⟩, "", ⟨""⟩, "", 0⟩] rfl rfl

/-- C10: when a WooCommerce order's `Total` string does not parse as a
number, `ConvertWooOrder` still returns an order whose `Total` is the
zero amount formatted in the order's currency — "$0.00" for USD — which
is identical to the `Total` of an order whose string genuinely parses to
zero. -/
theorem convertWooOrder_unparsable_total (now : DateTime) (w : WooOrder)
    (h : parseFloat w.Total = none) :
    (ConvertWooOrder now w).Total = FormatCurrency 0 w.Currency
    ∧ (asciiToUpper w.Currency = "USD" → (ConvertWooOrder now w).Total = "$0.00")
    ∧ (∀ w2 : WooOrder, parseFloat w2.Total = some 0 → w2.Currency = w.Currency →
        (ConvertWooOrder now w2).Total = (ConvertWooOrder now w).Total) := by
  have hTotal : (ConvertWooOrder now w).Total = FormatCurrency 0 w.Currency := by
    simp [ConvertWooOrder, h]
  refine ⟨hTotal, ?_, ?_⟩
  · intro hc
    rw [hTotal]
    have h1 : FormatCurrency 0 w.Currency = "$" ++ formatFloat2 0 := by
      simp [FormatCurrency, hc]
    rw [h1]
    decide
  · intro w2 h2 hcur
    simp [ConvertWooOrder, h, h2, hcur]

/-- C10 witness: a WooCommerce order whose total is "not-a-number" in
USD renders as "$0.00". -/
theorem convertWooOrder_unparsable_total_witness :
    parseFloat "not-a-number" = none
    ∧ (ConvertWooOrder exNow { exWoo with Total := "not-a-number" }).Total = "$0.00" :=
  ⟨rfl, (convertWooOrder_unparsable_total exNow { exWoo with Total := "not-a-number" }
      rfl).2.1 (by decide)⟩

end PaddyCap
